import Mathlib

/-!
Verification development for the EOS_connect home-energy coordinator.

Shallow embedding of the parts of the program relevant to the spec claims:
the mode-override HTTP handler and control-loop entry selection of
src/src/eos_connect.py, the MQTT publish-on-change bridge of
src/src/interfaces/mqtt_interface.py, and the load-profile builder of
src/src/interfaces/load_interface.py.

Python floats are modelled as rationals, machine timestamps as rational
seconds, fallible Python code as Except-valued functions, and the clock
readings and the HTTP fetch results as explicit parameters.
-/

/-! ### Mode-override HTTP handler

Embeds the validation and application part of handle_mode_override
(src/src/eos_connect.py lines 1286-1390).  The model covers payloads that
already passed JSON extraction and parsing (an int mode, a duration given as
HH:MM, a float grid charge power); parse failures take the except branches
and also yield HTTP 400, which is not in dispute. -/

structure OverridePayload where
  mode : Int
  durationHH : Int
  durationMM : Int
  gridChargePower : ℚ
deriving DecidableEq

inductive OverrideResult where
  | badRequest (msg : String)
  | success
deriving DecidableEq

/-- The arguments of the base_control.set_mode_override call performed when
the payload is accepted; none models that no control state was changed. -/
structure OverrideAction where
  mode : Int
  durationMinutes : Int
  gridChargePower : ℚ
deriving DecidableEq

/-- Validation chain of handle_mode_override, transcribed from the source.
Note that the duration check is `duration <= 0 and duration <= 12 * 60` and
the grid power check is `power < 0.5 and power <= max_rate / 1000`, both with
a conjunction, exactly as written in the Python code. -/
def handle_mode_override (maxGridChargeRate : ℚ) (p : OverridePayload) :
    OverrideResult × Option OverrideAction :=
  let duration := p.durationHH * 60 + p.durationMM
  if p.mode < -2 ∨ p.mode > 2 then
    (.badRequest "Invalid mode value", none)
  else if duration ≤ 0 ∧ duration ≤ 12 * 60 then
    (.badRequest "Duration must be greater than 0 and less/ equal than 12 hours", none)
  else if p.gridChargePower < 1/2 ∧ p.gridChargePower ≤ maxGridChargeRate / 1000 then
    (.badRequest "Grid charge power out of range", none)
  else
    (.success, some ⟨p.mode, duration, p.gridChargePower⟩)

/-! ### Control-loop entry selection

Embeds OptimizationScheduler.__run_control_loop (src/src/eos_connect.py lines
694-757).  The two entries returned by eos_interface.get_last_control_data()
are the inputs; the output is the control update handed to
setting_control_data, or none when the tick is skipped. -/

structure ControlEntry where
  hour : Int
  ac_charge_demand : Option ℚ
  dc_charge_demand : Option ℚ
  discharge_allowed : Option Bool
  error : Bool
deriving DecidableEq

structure ControlUpdate where
  ac_charge_demand : ℚ
  dc_charge_demand : ℚ
  discharge_allowed : Bool
deriving DecidableEq

/-- Field checks applied to the selected entry (missing data, negative data,
error flag), lines 710-757 of eos_connect.py. -/
def apply_control_entry (e : ControlEntry) : Option ControlUpdate :=
  match e.ac_charge_demand, e.dc_charge_demand, e.discharge_allowed with
  | some a, some d, some da =>
    if a < 0 ∨ d < 0 then none
    else if e.error = true then none
    else some ⟨a, d, da⟩
  | _, _, _ => none

/-- Entry selection of __run_control_loop as written in the source: entry 1
is checked first, then the startup sentinel hour -1 of entry 0, then the
no-entry-matches skip, and entry 0 otherwise. -/
def run_control_loop (currentHour : Int) (e0 e1 : ControlEntry) :
    Option ControlUpdate :=
  let sel : Option ControlEntry :=
    if currentHour = e1.hour then some e1
    else if e0.hour = -1 then none
    else if currentHour ≠ e0.hour ∧ currentHour ≠ e1.hour then none
    else some e0
  match sel with
  | none => none
  | some e => apply_control_entry e

/-- Claimed behaviour, following the words of the claim: entry 0 is selected
if its hour equals the current hour, else entry 1 if its hour matches, else
the tick is skipped; a selected entry with an error flag, a missing field or
a negative demand produces no update. -/
def run_control_loop_claimed (currentHour : Int) (e0 e1 : ControlEntry) :
    Option ControlUpdate :=
  let sel : Option ControlEntry :=
    if currentHour = e0.hour then some e0
    else if currentHour = e1.hour then some e1
    else none
  match sel with
  | none => none
  | some e => apply_control_entry e

/-! ### Base control update with SoC safety clamp

Embeds setting_control_data (src/src/eos_connect.py lines 384-427).  The
battery SoC read at that moment, the configured max_soc_percentage and the
EVCC snapshot are parameters; base_control is the record of stored values
behind its fine-grained setters and getters (base_control itself is not under
src, the spec describes it as plain mutex-guarded stored values). -/

structure BaseControlState where
  ac_charge_demand : ℚ
  dc_charge_demand : ℚ
  discharge_allowed : Bool
  battery_soc : ℚ
  evcc_charging_state : Bool
  evcc_charging_mode : String
deriving DecidableEq

/-- Values pushed to mqtt_interface.update_publish_topics by
setting_control_data, read back from base control after storing. -/
structure ControlPublishValues where
  eos_ac_charge_demand : ℚ
  eos_dc_charge_demand : ℚ
  eos_discharge_allowed : Bool
deriving DecidableEq

/-- Transcription of setting_control_data: clamp the AC demand to 0 with a
warning when the battery SoC is at or above max_soc and AC charging was
requested, store the three demands, publish the stored values, then store
the SoC and the EVCC snapshot.  The returned Bool records whether the
warning was logged. -/
def setting_control_data (max_soc current_soc : ℚ)
    (evcc_state : Bool) (evcc_mode : String)
    (ac_charge_demand_rel dc_charge_demand_rel : ℚ) (discharge_allowed : Bool)
    (st : BaseControlState) :
    BaseControlState × ControlPublishValues × Bool :=
  let warned := if current_soc ≥ max_soc ∧ ac_charge_demand_rel > 0 then true else false
  let ac := if current_soc ≥ max_soc ∧ ac_charge_demand_rel > 0 then 0
            else ac_charge_demand_rel
  let st1 := { st with
    ac_charge_demand := ac
    dc_charge_demand := dc_charge_demand_rel
    discharge_allowed := discharge_allowed }
  let pub : ControlPublishValues :=
    ⟨st1.ac_charge_demand, st1.dc_charge_demand, st1.discharge_allowed⟩
  let st2 := { st1 with
    battery_soc := current_soc
    evcc_charging_state := evcc_state
    evcc_charging_mode := evcc_mode }
  (st2, pub, warned)

/-! ### MQTT bridge

Embeds MqttInterface.update_publish_topics together with
__publish_topics_on_change (src/src/interfaces/mqtt_interface.py lines
552-590).  The topic table topics_publish and its snapshot
topics_publish_last always hold the same keys (the snapshot is created as a
per-entry copy in __init__ and keys are never added or removed), so the two
dictionaries are modelled as one list of records carrying both the current
and the last-published value.  V is the type of topic values (Python values
compared with !=), B stands for all remaining per-topic fields (name, qos,
retain, templates, ...). -/

structure TopicRec (V B : Type) where
  key : String
  value : Option V
  rest : B
  lastValue : Option V
  lastRest : B
deriving DecidableEq

structure MqttState (V B : Type) where
  enabled : Bool
  baseTopic : String
  table : List (TopicRec V B)
deriving DecidableEq

/-- One message handed to the paho client.publish call (qos and retain ride
along from the entry and are dropped here). -/
structure MqttMessage (V : Type) where
  topic : String
  payload : Option V
deriving DecidableEq

/-- One argument entry of update_publish_topics: the topic name together with
its "value" payload; the outer none models an argument dict that lacks the
"value" key, whose KeyError is caught and leaves the entry unchanged. -/
abbrev TopicArg (V : Type) := String × Option (Option V)

/-- Effect of one iteration of the argument loop of update_publish_topics:
if the topic is in the table, its value is overwritten; topics absent from
the table are ignored. -/
def apply_topic_arg {V B : Type} (table : List (TopicRec V B)) (a : TopicArg V) :
    List (TopicRec V B) :=
  table.map fun r =>
    if r.key = a.1 then
      match a.2 with
      | some v => { r with value := v }
      | none => r
    else r

def apply_topic_args {V B : Type} (table : List (TopicRec V B))
    (args : List (TopicArg V)) : List (TopicRec V B) :=
  args.foldl apply_topic_arg table

/-- __publish_topics_on_change: walk the topic table, publish every topic
whose value differs from the last-published snapshot, and sync the snapshot. -/
def publish_topics_on_change {V B : Type} [DecidableEq V] (baseTopic : String)
    (table : List (TopicRec V B)) :
    List (TopicRec V B) × List (MqttMessage V) :=
  (table.map fun r =>
      if r.lastValue ≠ r.value then { r with lastValue := r.value } else r,
   table.filterMap fun r =>
      if r.lastValue ≠ r.value then
        some ⟨baseTopic ++ "/" ++ r.key, r.value⟩
      else none)

/-- update_publish_topics: an early return when MQTT is disabled, otherwise
apply the argument values and publish the changed topics. -/
def update_publish_topics {V B : Type} [DecidableEq V] (st : MqttState V B)
    (args : List (TopicArg V)) : MqttState V B × List (MqttMessage V) :=
  if st.enabled = false then (st, [])
  else
    let t1 := apply_topic_args st.table args
    let p := publish_topics_on_change st.baseTopic t1
    ({ st with table := p.1 }, p.2)

/-- Net effect of the argument loop on the value of one topic: the folded
sequence of assignments for that key, ignoring entries without a payload. -/
def topic_arg_value {V : Type} (args : List (TopicArg V)) (k : String)
    (v : Option V) : Option V :=
  args.foldl (fun acc a =>
    if k = a.1 then
      match a.2 with
      | some w => w
      | none => acc
    else acc) v

/-! ### Load interface

Embeds the load-profile pipeline of src/src/interfaces/load_interface.py.
Sensor sample states are modelled by whether Python float() accepts them,
timestamps by whether datetime.fromisoformat accepts them (as rational
seconds); the wall clock read by datetime.now() is a parameter. -/

inductive SampleState where
  | unavail
  | num (q : ℚ)
  | invalid
deriving DecidableEq

inductive SampleTime where
  | valid (t : ℚ)
  | malformed
  | missing
deriving DecidableEq

/-- Whether the last_updated field is present and parseable. -/
def SampleTime.isValid : SampleTime → Bool
  | .valid _ => true
  | _ => false

structure Sample where
  state : SampleState
  last_updated : SampleTime
deriving DecidableEq

inductive Source where
  | openhab
  | homeassistant
  | defaultSrc
deriving DecidableEq

/-- Result of Python float() on a state string. -/
def parseFloat : SampleState → Option ℚ
  | .num q => some q
  | _ => none

/-- Result of datetime.fromisoformat on a last_updated field; none covers
both a malformed string (ValueError) and a missing key (KeyError). -/
def parseTime : SampleTime → Option ℚ
  | .valid t => some t
  | _ => none

/-- Python round() with round-half-to-even tie breaking. -/
def pyRound (q : ℚ) : ℤ :=
  let f := ⌊q⌋
  let frac := q - f
  if frac < 1/2 then f
  else if 1/2 < frac then f + 1
  else if f % 2 = 0 then f else f + 1

/-- Python round(x, 4). -/
def round4 (q : ℚ) : ℚ := (pyRound (q * 10000) : ℚ) / 10000

/-- replace(minute=0, second=0, microsecond=0): floor a timestamp to the
enclosing hour boundary. -/
def floorHour (t : ℚ) : ℚ := 3600 * (⌊t / 3600⌋ : ℚ)

/-- The local mutable variables of __process_energy_data. -/
structure PState where
  totalEnergy : ℚ
  totalDuration : ℚ
  currentState : ℚ
  lastState : ℚ
  currentTime : ℚ
  duration : ℚ
deriving DecidableEq

def initPState (now : ℚ) : PState := ⟨0, 0, 0, 0, now, 0⟩

/-- The except branch of the loop body of __process_energy_data
(load_interface.py lines 236-265).  It re-parses the last_updated field of
sample i: for homeassistant the parsed value is assigned to current_time
while building the debug URL, and the warning message formats the parsed
timestamp for both sources.  When that field is itself missing or malformed
this re-parse raises an uncaught exception, modelled as Except.error. -/
def process_pair_handler (src : Source) (s0 : Sample) (st : PState) :
    Except Unit PState :=
  match s0.last_updated with
  | .valid t => .ok (if src = .homeassistant then { st with currentTime := t } else st)
  | _ => .error ()

/-- One iteration of the loop of __process_energy_data over samples i and
i+1, threading the partial assignments made before an exception exactly as
Python leaves them. -/
def process_pair (src : Source) (s0 s1 : Sample) (st : PState) :
    Except Unit PState :=
  if s1.state = .unavail ∨ s0.state = .unavail then .ok st
  else
    match parseFloat s0.state with
    | none => process_pair_handler src s0 st
    | some v0 =>
      let st1 := { st with currentState := v0 }
      match parseFloat s1.state with
      | none => process_pair_handler src s0 st1
      | some v1 =>
        let st2 := { st1 with lastState := v1 }
        match parseTime s0.last_updated with
        | none => process_pair_handler src s0 st2
        | some t0 =>
          let st3 := { st2 with currentTime := t0 }
          match parseTime s1.last_updated with
          | none => process_pair_handler src s0 st3
          | some t1 =>
            let d := t1 - st3.currentTime
            .ok { st3 with
              duration := d
              totalEnergy := st3.totalEnergy + st3.currentState * d
              totalDuration := st3.totalDuration + d }

/-- The for loop of __process_energy_data over indices 0 .. len-2, each
iteration reading samples i and i+1. -/
def process_loop (src : Source) : List Sample → PState → Except Unit PState
  | s0 :: s1 :: rest, st =>
    match process_pair src s0 s1 st with
    | .error e => .error e
    | .ok st1 => process_loop src (s1 :: rest) st1
  | _, st => .ok st

/-- The tail of __process_energy_data: extend the last sample to the hour
boundary when less than one hour is covered, then divide only when the
accumulated duration is strictly positive. -/
def finish_process (st : PState) : ℚ :=
  let st1 :=
    if st.totalDuration < 3600 then
      let d := floorHour (st.currentTime + 3600) - st.currentTime
      { st with
        duration := d
        totalEnergy := st.totalEnergy + st.lastState * d
        totalDuration := st.totalDuration + d }
    else st
  if st1.totalDuration > 0 then round4 (st1.totalEnergy / st1.totalDuration) else 0

/-- LoadInterface.__process_energy_data (lines 206-282); now is the clock
value read by datetime.now() at entry. -/
def process_energy_data (src : Source) (now : ℚ) (samples : List Sample) :
    Except Unit ℚ :=
  (process_loop src samples (initPState now)).map finish_process

/-! #### Historical-data fetchers (lines 97-204)

The upstream interaction of one call is modelled by its outcome: the parsed
sample list on HTTP success, or the failure kind.  badStatus is a non-2xx
response: for OpenHAB raise_for_status turns it into a RequestException, for
Home Assistant it is the explicit status_code check. -/

inductive FetchOutcome where
  | ok (l : List Sample)
  | badStatus
  | timeout
  | requestError
deriving DecidableEq

inductive LogLevel where
  | warning
  | error
deriving DecidableEq

/-- Value returned by __fetch_historical_energy_data_from_openhab: the
filtered sample list on success, or the literal dict with an empty data list
on failure.  Downstream, __process_energy_data treats the dict exactly like
an empty sample list (both produce zero loop iterations), but iterating it
as a list of entries raises a TypeError. -/
inductive OpenhabFetchResult where
  | samples (l : List Sample)
  | emptyDataDict
deriving DecidableEq

/-- LoadInterface.__fetch_historical_energy_data_from_openhab, returning the
result, the log records it emits and the number of HTTP attempts made. -/
def fetch_historical_energy_data_from_openhab (item : String)
    (outcome : FetchOutcome) : OpenhabFetchResult × List LogLevel × Nat :=
  if item = "" then (.emptyDataDict, [], 0)
  else
    match outcome with
    | .ok l => (.samples l, [], 1)
    | .badStatus => (.emptyDataDict, [.error], 1)
    | .timeout => (.emptyDataDict, [.error], 1)
    | .requestError => (.emptyDataDict, [.error], 1)

/-- LoadInterface.__fetch_historical_energy_data_from_homeassistant; a non-200
status logs two error records (the message and the response text). -/
def fetch_historical_energy_data_from_homeassistant (entity : String)
    (outcome : FetchOutcome) : List Sample × List LogLevel × Nat :=
  if entity = "" then ([], [], 0)
  else
    match outcome with
    | .ok l => (l, [], 1)
    | .badStatus => ([], [.error, .error], 1)
    | .timeout => ([], [.error], 1)
    | .requestError => ([], [.error], 1)

structure LoadConfig where
  src : Source
  load_sensor : String
  car_charge_load_sensor : String
  additional_load_1_sensor : String
deriving DecidableEq

/-- Fetch outcomes and clock reading for one hour bucket of
get_load_profile_for_day (the three sensor fetches of that bucket happen in
the same loop iteration). -/
structure BucketEnv where
  now : ℚ
  main : FetchOutcome
  car : FetchOutcome
  add1 : FetchOutcome
deriving DecidableEq

/-- Sample list fed to __process_energy_data for the main load sensor of one
bucket (lines 405-418).  An OpenHAB fetch failure hands the sentinel dict to
the processor, which behaves exactly like an empty sample list there; a Home
Assistant failure yields an empty list directly. -/
def main_samples (src : Source) (o : FetchOutcome) : List Sample :=
  match src, o with
  | .openhab, .ok l => l
  | .openhab, _ => []
  | .homeassistant, .ok l => l
  | .homeassistant, _ => []
  | .defaultSrc, _ => []

/-- LoadInterface.__get_additional_load_list_from_to (lines 284-333).  On
OpenHAB fetch failure the sentinel dict is iterated as if it were a list of
entries, raising an uncaught TypeError, modelled as Except.error.  The
in-place float() conversion loop only changes string representations to
floats and is the identity in this model. -/
def get_additional_load_list_from_to (src : Source) (item : String)
    (o : FetchOutcome) : Except Unit (List Sample) :=
  match src with
  | .openhab =>
    match (fetch_historical_energy_data_from_openhab item o).1 with
    | .samples l => .ok l
    | .emptyDataDict => .error ()
  | .homeassistant => .ok (fetch_historical_energy_data_from_homeassistant item o).1
  | .defaultSrc => .ok []

/-- Processed energy of one controllable-load sensor in one bucket: skipped
when the sensor is not configured, otherwise the absolute processed value
(abs is applied at the call sites in lines 426-430 and 439-443). -/
def controllable_energy (src : Source) (now : ℚ) (sensor : String)
    (o : FetchOutcome) : Except Unit ℚ :=
  if sensor ≠ "" then
    match get_additional_load_list_from_to src sensor o with
    | .error e => .error e
    | .ok l => (process_energy_data src now l).map abs
  else .ok 0

/-- Energy value appended for one hour bucket by get_load_profile_for_day
(lines 399-497): the absolute processed main load minus the guarded sum of
the controllable loads. -/
def bucket_energy (cfg : LoadConfig) (b : BucketEnv) : Except Unit ℚ :=
  match controllable_energy cfg.src b.now cfg.car_charge_load_sensor b.car with
  | .error e => .error e
  | .ok car0 =>
    let car_load_energy := max car0 0
    match controllable_energy cfg.src b.now cfg.additional_load_1_sensor b.add1 with
    | .error e => .error e
    | .ok add0 =>
      let add_load_data_1_energy := max add0 0
      let sum_controlable_energy_load := car_load_energy + add_load_data_1_energy
      match (process_energy_data cfg.src b.now (main_samples cfg.src b.main)).map abs with
      | .error e => .error e
      | .ok energy =>
        .ok (if sum_controlable_energy_load ≤ energy then
              energy - sum_controlable_energy_load
            else energy)

/-- Sequential per-bucket evaluation with early exit on an exception (the
append loop of get_load_profile_for_day). -/
def map_buckets (cfg : LoadConfig) : List BucketEnv → Except Unit (List ℚ)
  | [] => .ok []
  | b :: bs =>
    match bucket_energy cfg b with
    | .error e => .error e
    | .ok q =>
      match map_buckets cfg bs with
      | .error e => .error e
      | .ok qs => .ok (q :: qs)

/-- LoadInterface.get_load_profile_for_day over the hourly buckets of the
requested range; a midnight-to-midnight range always yields 24 buckets.  An
unsupported source returns the empty profile from inside the first
iteration. -/
def get_load_profile_for_day (cfg : LoadConfig) (buckets : List BucketEnv) :
    Except Unit (List ℚ) :=
  if cfg.src = .openhab ∨ cfg.src = .homeassistant then
    map_buckets cfg buckets
  else .ok []

/-- The averaging loops of __create_load_profile_weekdays (lines 565-580):
for each entry of the one-week-before profile, average with the
two-weeks-before profile when that one has at least 24 values.  Python
indexes b directly; in every execution reaching the average branch the index
stays below 24 and b has at least 24 entries, so getD never takes its
default. -/
def combine_days (a b : List ℚ) : List ℚ :=
  (List.range a.length).map fun i =>
    let v := a.getD i 0
    if b ≠ [] ∧ 24 ≤ b.length then (v + b.getD i 0) / 2 else v

/-- The built-in 48-entry synthetic default profile
(LoadInterface._get_default_profile, lines 656-712). -/
def default_profile : List ℚ :=
  [200, 200, 200, 200, 200, 300, 350, 400, 350, 300, 300, 550,
   450, 400, 300, 300, 400, 450, 500, 500, 500, 400, 300, 200,
   200, 200, 200, 200, 200, 300, 350, 400, 350, 300, 300, 550,
   450, 400, 300, 300, 400, 450, 500, 500, 500, 400, 300, 200]

/-- LoadInterface.__create_load_profile_weekdays (lines 506-618), over the
bucket environments of the four historical windows and of yesterday.  Each
window is one civil day fetched hour by hour, hence 24 buckets. -/
def create_load_profile_weekdays (cfg : LoadConfig)
    (d7 d14 d6 d13 d1 : Fin 24 → BucketEnv) : Except Unit (List ℚ) :=
  match get_load_profile_for_day cfg (List.ofFn d7) with
  | .error e => .error e
  | .ok p1 =>
  match get_load_profile_for_day cfg (List.ofFn d14) with
  | .error e => .error e
  | .ok p2 =>
  match get_load_profile_for_day cfg (List.ofFn d6) with
  | .error e => .error e
  | .ok p3 =>
  match get_load_profile_for_day cfg (List.ofFn d13) with
  | .error e => .error e
  | .ok p4 =>
  let load_profile := combine_days p1 p2 ++ combine_days p3 p4
  if load_profile = [] ∨ load_profile.all (· = 0) then
    match get_load_profile_for_day cfg (List.ofFn d1) with
    | .error e => .error e
    | .ok yesterday_profile =>
      if yesterday_profile ≠ [] ∧ ¬ yesterday_profile.all (· = 0) then
        .ok (yesterday_profile ++ yesterday_profile)
      else
        .ok default_profile
  else
    .ok load_profile

/-- LoadInterface.get_load_profile (lines 620-654); __check_config has
already forced src into the three supported values. -/
def get_load_profile (cfg : LoadConfig) (tgt_duration : Nat)
    (d7 d14 d6 d13 d1 : Fin 24 → BucketEnv) : Except Unit (List ℚ) :=
  match cfg.src with
  | .defaultSrc => .ok (default_profile.take tgt_duration)
  | _ =>
    if cfg.load_sensor = "" then .ok (default_profile.take tgt_duration)
    else create_load_profile_weekdays cfg d7 d14 d6 d13 d1

/-! ## Theorems -/

/-- C1: for every call to setting_control_data, when the battery SoC read at
that moment is at or above max_soc_percentage and the AC charge demand is
positive, the AC demand stored into base control and the published AC demand
are 0 and the warning is logged; otherwise the stored AC demand is the input
unchanged. -/
theorem setting_control_data_soc_clamp (max_soc current_soc : ℚ)
    (evcc_state : Bool) (evcc_mode : String)
    (ac dc : ℚ) (da : Bool) (st : BaseControlState) :
    ((setting_control_data max_soc current_soc evcc_state evcc_mode ac dc da st).1.ac_charge_demand
        = if current_soc ≥ max_soc ∧ ac > 0 then 0 else ac)
    ∧ ((setting_control_data max_soc current_soc evcc_state evcc_mode ac dc da st).2.1.eos_ac_charge_demand
        = if current_soc ≥ max_soc ∧ ac > 0 then 0 else ac)
    ∧ ((setting_control_data max_soc current_soc evcc_state evcc_mode ac dc da st).2.2 = true
        ↔ (current_soc ≥ max_soc ∧ ac > 0)) := by
  refine ⟨rfl, rfl, ?_⟩
  simp only [setting_control_data]
  split_ifs with h <;> simp [h]

/-- C2: evaluation of the mode-override validation at in-code-documented
out-of-range inputs.  With max_grid_charge_rate 10000, a duration of 13:00
(780 minutes, above the documented 12-hour bound) is accepted and the
override is applied, and so is a grid charge power of 20 kW (above
max_grid_charge_rate / 1000 = 10): the duration check `duration <= 0 and
duration <= 720` and the power check `power < 0.5 and power <= max/1000`
only ever reject too-small values. -/
theorem handle_mode_override_accepts_out_of_range :
    handle_mode_override 10000 ⟨0, 13, 0, 5/2⟩ = (.success, some ⟨0, 780, 5/2⟩)
    ∧ handle_mode_override 10000 ⟨0, 0, 30, 20⟩ = (.success, some ⟨0, 30, 20⟩)
    ∧ (780 : Int) > 12 * 60 ∧ (20 : ℚ) > 10000 / 1000 := by
  refine ⟨?_, ?_, by decide, by norm_num⟩ <;>
    · simp only [handle_mode_override]
      norm_num

/-- C3: under the well-formedness of the last control data described by the
spec (entries 0 and 1 hold the current and the next hour, hence distinct
hour fields) and a wall-clock hour in 0..23, the control-loop tick behaves
exactly as claimed: entry 0 is used when its hour matches the current hour,
else entry 1 when its hour matches, else the tick is skipped, and a selected
entry with the error flag, a missing field or a negative demand produces no
control update. -/
theorem run_control_loop_matches_claimed (currentHour : Int)
    (e0 e1 : ControlEntry) (hcur : 0 ≤ currentHour)
    (hne : e0.hour ≠ e1.hour) :
    run_control_loop currentHour e0 e1
      = run_control_loop_claimed currentHour e0 e1 := by
  unfold run_control_loop run_control_loop_claimed
  by_cases h1 : currentHour = e1.hour
  · by_cases h0 : currentHour = e0.hour
    · exact absurd (h0.symm.trans h1) hne
    · simp [h0, h1, Ne.symm hne]
  · by_cases h0 : currentHour = e0.hour
    · have hm : e0.hour ≠ -1 := by omega
      simp [h0, h1, hm, hne]
    · by_cases hm : e0.hour = -1
      · have hc : currentHour ≠ -1 := by omega
        simp [h0, h1, hm, hc]
      · simp [h0, h1, hm]

/-- Witness for C3 at a concrete tick. -/
theorem run_control_loop_matches_claimed_witness :
    run_control_loop 5 ⟨5, some 100, some 0, some true, false⟩
        ⟨6, some 1500, some 2000, some false, false⟩
      = run_control_loop_claimed 5 ⟨5, some 100, some 0, some true, false⟩
        ⟨6, some 1500, some 2000, some false, false⟩ :=
  run_control_loop_matches_claimed 5 _ _ (by decide) (by decide)

/-- Unfolding of the per-topic net value over one more argument entry. -/
theorem topic_arg_value_cons {V : Type} (a : TopicArg V) (args : List (TopicArg V))
    (k : String) (v : Option V) :
    topic_arg_value (a :: args) k v
      = topic_arg_value args k
          (if k = a.1 then
            match a.2 with
            | some w => w
            | none => v
          else v) := by
  simp only [topic_arg_value, List.foldl_cons]

/-- Arguments that never mention a key leave its value untouched. -/
theorem topic_arg_value_of_not_mem {V : Type} (args : List (TopicArg V))
    (k : String) (v : Option V) (h : ∀ a ∈ args, a.1 ≠ k) :
    topic_arg_value args k v = v := by
  induction args generalizing v with
  | nil => rfl
  | cons a args ih =>
    rw [topic_arg_value_cons]
    have hk : k ≠ a.1 := fun hk => h a (List.mem_cons_self a args) hk.symm
    rw [if_neg hk]
    exact ih v fun b hb => h b (List.mem_cons_of_mem a hb)

/-- The argument loop of update_publish_topics acts pointwise on the table:
each record keeps its key and all other fields and its value becomes the
folded assignment for its key. -/
theorem apply_topic_args_eq_map {V B : Type} (table : List (TopicRec V B))
    (args : List (TopicArg V)) :
    apply_topic_args table args
      = table.map fun r => { r with value := topic_arg_value args r.key r.value } := by
  induction args generalizing table with
  | nil =>
    have h : table.map (fun r => ({ r with value := topic_arg_value [] r.key r.value } : TopicRec V B))
        = table.map id := List.map_congr_left fun r _ => by cases r; rfl
    show table = _
    rw [h, List.map_id]
  | cons a args ih =>
    show apply_topic_args (apply_topic_arg table a) args = _
    rw [ih, apply_topic_arg, List.map_map]
    refine List.map_congr_left fun r _ => ?_
    by_cases hk : r.key = a.1
    · cases ha : a.2 with
      | none => simp [Function.comp, hk, ha, topic_arg_value_cons]
      | some w => simp [Function.comp, hk, ha, topic_arg_value_cons]
    · simp [Function.comp, hk, topic_arg_value_cons]

/-- Closed form of update_publish_topics on an enabled bridge. -/
theorem update_publish_topics_enabled_eq {V B : Type} [DecidableEq V]
    (base : String) (table : List (TopicRec V B)) (args : List (TopicArg V)) :
    update_publish_topics ⟨true, base, table⟩ args
      = (⟨true, base,
          (apply_topic_args table args).map fun r =>
            if r.lastValue ≠ r.value then { r with lastValue := r.value } else r⟩,
         (apply_topic_args table args).filterMap fun r =>
            if r.lastValue ≠ r.value then
              some ⟨base ++ "/" ++ r.key, r.value⟩
            else none) := rfl

/-- C5: on an enabled bridge, every message published by
update_publish_topics belongs to a topic whose newly set value differs from
its last-published value; a call in which every tracked topic's value equals
its last-published value publishes nothing; and after any call every
last-published value equals the current value, so a sequence of calls that
never changes a value performs zero publishes. -/
theorem update_publish_topics_publishes_only_changes {V B : Type} [DecidableEq V]
    (st : MqttState V B) (args : List (TopicArg V)) :
    (∀ m ∈ (update_publish_topics st args).2,
        ∃ r ∈ apply_topic_args st.table args,
          m.topic = st.baseTopic ++ "/" ++ r.key ∧ m.payload = r.value
            ∧ r.lastValue ≠ r.value)
    ∧ ((∀ r ∈ apply_topic_args st.table args, r.lastValue = r.value) →
        (update_publish_topics st args).2 = [])
    ∧ (st.enabled = true →
        ∀ r ∈ (update_publish_topics st args).1.table, r.lastValue = r.value) := by
  obtain ⟨en, base, table⟩ := st
  cases en with
  | false => refine ⟨?_, ?_, ?_⟩ <;> simp [update_publish_topics]
  | true =>
    rw [update_publish_topics_enabled_eq]
    refine ⟨?_, ?_, ?_⟩
    · intro m hm
      simp only [List.mem_filterMap] at hm
      obtain ⟨r, hr, hfr⟩ := hm
      by_cases hch : r.lastValue ≠ r.value
      · rw [if_pos hch] at hfr
        have hm' := Option.some.inj hfr
        exact ⟨r, hr, hm' ▸ rfl, hm' ▸ rfl, hch⟩
      · rw [if_neg hch] at hfr
        exact absurd hfr (by simp)
    · intro hall
      exact List.filterMap_eq_nil_iff.mpr fun r hr =>
        if_neg (not_not_intro (hall r hr))
    · intro _ r hr
      simp only [List.mem_map] at hr
      obtain ⟨s, _, hs⟩ := hr
      by_cases hch : s.lastValue ≠ s.value
      · rw [if_pos hch] at hs
        exact hs ▸ rfl
      · rw [if_neg hch] at hs
        exact hs ▸ not_ne_iff.mp hch

/-- Witness for C5: a call whose values all match the snapshot publishes
nothing. -/
theorem update_publish_topics_publishes_only_changes_witness :
    (update_publish_topics (V := Int) (B := Unit)
        ⟨true, "eos_connect", [⟨"status", some 1, (), some 1, ()⟩]⟩
        [("status", some (some 1))]).2 = [] :=
  (update_publish_topics_publishes_only_changes _ _).2.1 (by decide)

/-- C9: frame property of update_publish_topics on an enabled bridge.  The
resulting table is the pointwise image of the old one: each record keeps its
key and all fields other than value and lastValue, its value is the folded
argument assignment for its key (so records whose key the argument never
assigns keep their value, and argument topics without a table record change
nothing), and lastValue is resynchronised only when the value changed.
Enabled flag and base topic are untouched. -/
theorem update_publish_topics_frame {V B : Type} [DecidableEq V]
    (st : MqttState V B) (args : List (TopicArg V)) (hen : st.enabled = true) :
    ((update_publish_topics st args).1.table
        = st.table.map fun r =>
            let v := topic_arg_value args r.key r.value
            { r with value := v,
                     lastValue := if r.lastValue ≠ v then v else r.lastValue })
    ∧ (∀ k v, (∀ a ∈ args, a.1 ≠ k) → topic_arg_value args k v = v)
    ∧ (update_publish_topics st args).1.enabled = st.enabled
    ∧ (update_publish_topics st args).1.baseTopic = st.baseTopic := by
  obtain ⟨en, base, table⟩ := st
  cases en with
  | false => exact absurd hen (by simp)
  | true =>
    rw [update_publish_topics_enabled_eq]
    refine ⟨?_, fun k v h => topic_arg_value_of_not_mem args k v h, rfl, rfl⟩
    simp only [apply_topic_args_eq_map, List.map_map]
    refine List.map_congr_left fun r _ => ?_
    by_cases hch : r.lastValue ≠ topic_arg_value args r.key r.value
    · simp [Function.comp, hch]
    · simp [Function.comp, hch, not_ne_iff.mp hch]

/-- Witness for C9 on a concrete enabled state. -/
theorem update_publish_topics_frame_witness :
    ((update_publish_topics (V := Int) (B := Unit)
        ⟨true, "eos_connect", [⟨"status", some 1, (), some 2, ()⟩]⟩
        [("other", some (some 5))]).1.table
      = [⟨"status", some 1, (), some 1, ()⟩])
    ∧ topic_arg_value (V := Int) [("other", some (some 5))] "status" (some 1) = some 1 :=
  ⟨by
    rw [(update_publish_topics_frame (V := Int) (B := Unit)
      ⟨true, "eos_connect", [⟨"status", some 1, (), some 2, ()⟩]⟩
      [("other", some (some 5))] rfl).1]
    decide,
   (update_publish_topics_frame (V := Int) (B := Unit)
      ⟨true, "eos_connect", [⟨"status", some 1, (), some 2, ()⟩]⟩
      [("other", some (some 5))] rfl).2.1 "status" (some 1) (by decide)⟩

/-- C10: with MQTT disabled in the configuration, update_publish_topics
returns immediately: no message is published and the state is unchanged. -/
theorem update_publish_topics_disabled {V B : Type} [DecidableEq V]
    (st : MqttState V B) (args : List (TopicArg V))
    (hdis : st.enabled = false) :
    update_publish_topics st args = (st, []) := by
  simp [update_publish_topics, hdis]

/-- Witness for C10 on a concrete disabled state. -/
theorem update_publish_topics_disabled_witness :
    update_publish_topics (V := Int) (B := Unit)
        ⟨false, "eos_connect", [⟨"status", some 1, (), some 2, ()⟩]⟩
        [("status", some (some 9))]
      = (⟨false, "eos_connect", [⟨"status", some 1, (), some 2, ()⟩]⟩, []) :=
  update_publish_topics_disabled _ _ rfl

/-- C7: evaluation of the historical-data fetchers at a persistently failing
upstream.  One single HTTP attempt is made, one error record is logged (no
warnings) and the empty sentinel is returned; there is no retry loop in
either fetcher, although the test suite of the repository asserts three
attempts with a warning before the final error. -/
theorem fetch_historical_data_single_attempt :
    fetch_historical_energy_data_from_openhab "sensor.test" .timeout
      = (.emptyDataDict, [.error], 1)
    ∧ fetch_historical_energy_data_from_openhab "sensor.test" .requestError
      = (.emptyDataDict, [.error], 1)
    ∧ fetch_historical_energy_data_from_homeassistant "sensor.test" .timeout
      = ([], [.error], 1)
    ∧ fetch_historical_energy_data_from_homeassistant "sensor.test" .requestError
      = ([], [.error], 1) := by
  refine ⟨?_, ?_, ?_, ?_⟩ <;> rfl

/-- C8 counterexample: a sample whose state is non-numeric and whose
last_updated field is malformed makes __process_energy_data raise from
inside its own skip-invalid-data handler (the warning message re-parses the
timestamp outside the try block), instead of returning a value. -/
theorem process_energy_data_raises_on_malformed_timestamp :
    process_energy_data .openhab 0
        [⟨.invalid, .malformed⟩, ⟨.num 1, .valid 0⟩] = .error () := rfl

/-- The except handler succeeds whenever the first sample of the pair has a
parseable timestamp. -/
theorem process_pair_handler_ok (src : Source) (s0 : Sample) (st : PState)
    (t : ℚ) (ht : s0.last_updated = .valid t) :
    process_pair_handler src s0 st
      = .ok (if src = .homeassistant then { st with currentTime := t } else st) := by
  simp [process_pair_handler, ht]

/-- A loop iteration can only raise when the first sample of the pair has an
unparseable timestamp. -/
theorem process_pair_error (src : Source) (s0 s1 : Sample) (st : PState)
    (h : process_pair src s0 s1 st = .error ()) :
    s0.last_updated.isValid = false := by
  cases hv : s0.last_updated with
  | valid t =>
    exfalso
    unfold process_pair at h
    by_cases hun : s1.state = .unavail ∨ s0.state = .unavail
    · rw [if_pos hun] at h
      exact Except.noConfusion h
    · rw [if_neg hun] at h
      cases hp0 : parseFloat s0.state with
      | none =>
        simp only [hp0, process_pair_handler, hv] at h
        exact Except.noConfusion h
      | some v0 =>
        simp only [hp0] at h
        cases hp1 : parseFloat s1.state with
        | none =>
          simp only [hp1, process_pair_handler, hv] at h
          exact Except.noConfusion h
        | some v1 =>
          simp only [hp1, hv, parseTime] at h
          cases hs1 : s1.last_updated <;>
            simp only [hs1, process_pair_handler, hv] at h <;>
            exact Except.noConfusion h
  | malformed => rfl
  | missing => rfl

/-- The loop of __process_energy_data terminates without raising when every
sample carries a parseable timestamp. -/
theorem process_loop_ok (src : Source) (samples : List Sample)
    (h : ∀ s ∈ samples, s.last_updated.isValid = true) :
    ∀ st : PState, ∃ st', process_loop src samples st = .ok st' := by
  induction samples with
  | nil => exact fun st => ⟨st, rfl⟩
  | cons s0 tail ih =>
    intro st
    cases tail with
    | nil => exact ⟨st, rfl⟩
    | cons s1 rest =>
      cases hp : process_pair src s0 s1 st with
      | error e =>
        cases e
        have hinv := process_pair_error src s0 s1 st hp
        rw [h s0 (List.mem_cons_self _ _)] at hinv
        exact Bool.noConfusion hinv
      | ok st1 =>
        obtain ⟨st', hst'⟩ :=
          ih (fun s hs => h s (List.mem_cons_of_mem s0 hs)) st1
        refine ⟨st', ?_⟩
        rw [show process_loop src (s0 :: s1 :: rest) st
              = match process_pair src s0 s1 st with
                | .error e => .error e
                | .ok st1 => process_loop src (s1 :: rest) st1 from rfl,
            hp]
        exact hst'

/-- C8 amended: __process_energy_data returns a value without raising for
every sample list whose entries carry a present, parseable last_updated
field (with an unparseable one, the warning path itself raises, see the
counterexample), and the returned value divides the accumulated energy only
by a strictly positive accumulated duration, being 0 otherwise. -/
theorem process_energy_data_total_on_valid_timestamps (src : Source)
    (now : ℚ) (samples : List Sample)
    (h : ∀ s ∈ samples, s.last_updated.isValid = true) :
    ∃ q, process_energy_data src now samples = .ok q
      ∧ (q = 0 ∨ ∃ E D : ℚ, 0 < D ∧ q = round4 (E / D)) := by
  obtain ⟨st', hst'⟩ := process_loop_ok src samples h (initPState now)
  refine ⟨finish_process st', ?_, ?_⟩
  · rw [process_energy_data, hst']
    rfl
  · simp only [finish_process]
    split_ifs <;> first
      | exact Or.inl rfl
      | exact Or.inr ⟨_, _, by assumption, rfl⟩

/-- Witness for the amended C8 on a concrete two-sample list. -/
theorem process_energy_data_total_on_valid_timestamps_witness :
    ∃ q, process_energy_data .openhab 100
        [⟨.num 2, .valid 0⟩, ⟨.num 4, .valid 1800⟩] = .ok q
      ∧ (q = 0 ∨ ∃ E D : ℚ, 0 < D ∧ q = round4 (E / D)) :=
  process_energy_data_total_on_valid_timestamps .openhab 100
    [⟨.num 2, .valid 0⟩, ⟨.num 4, .valid 1800⟩] (by decide)

/-- A value obtained through Except.map abs is nonnegative. -/
theorem except_map_abs_ok {x : Except Unit ℚ} {e : ℚ}
    (h : Except.map abs x = .ok e) : 0 ≤ e := by
  cases x with
  | error u => exact Except.noConfusion h
  | ok q =>
    simp only [Except.map] at h
    have hq := Except.ok.inj h
    rw [← hq]
    exact abs_nonneg q

/-- A successfully processed controllable-load energy is nonnegative. -/
theorem controllable_energy_ok_nonneg {src : Source} {now : ℚ}
    {sensor : String} {o : FetchOutcome} {e : ℚ}
    (h : controllable_energy src now sensor o = .ok e) : 0 ≤ e := by
  unfold controllable_energy at h
  split at h
  · cases hg : get_additional_load_list_from_to src sensor o with
    | error u => simp only [hg] at h; exact Except.noConfusion h
    | ok l =>
      simp only [hg] at h
      exact except_map_abs_ok h
  · have := Except.ok.inj h
    rw [← this]

/-- A successfully computed bucket value is nonnegative: the subtraction of
the controllable loads is guarded, and the raw value is an absolute value. -/
theorem bucket_energy_ok_nonneg {cfg : LoadConfig} {b : BucketEnv} {q : ℚ}
    (h : bucket_energy cfg b = .ok q) : 0 ≤ q := by
  unfold bucket_energy at h
  cases hcar : controllable_energy cfg.src b.now cfg.car_charge_load_sensor b.car with
  | error u => simp only [hcar] at h; exact Except.noConfusion h
  | ok car0 =>
    simp only [hcar] at h
    cases hadd : controllable_energy cfg.src b.now cfg.additional_load_1_sensor b.add1 with
    | error u => simp only [hadd] at h; exact Except.noConfusion h
    | ok add0 =>
      simp only [hadd] at h
      cases hmain : Except.map abs
          (process_energy_data cfg.src b.now (main_samples cfg.src b.main)) with
      | error u => simp only [hmain] at h; exact Except.noConfusion h
      | ok energy =>
        simp only [hmain] at h
        have henergy := except_map_abs_ok hmain
        have hq := Except.ok.inj h
        rw [← hq]
        split_ifs with hle
        · exact sub_nonneg.mpr hle
        · exact henergy

/-- Length and sign of a successful bucket traversal. -/
theorem map_buckets_ok {cfg : LoadConfig} {bs : List BucketEnv} {l : List ℚ}
    (h : map_buckets cfg bs = .ok l) :
    l.length = bs.length ∧ ∀ q ∈ l, 0 ≤ q := by
  induction bs generalizing l with
  | nil =>
    have := Except.ok.inj h
    rw [← this]
    exact ⟨rfl, by simp⟩
  | cons b bs ih =>
    unfold map_buckets at h
    cases hb : bucket_energy cfg b with
    | error u => simp only [hb] at h; exact Except.noConfusion h
    | ok q0 =>
      simp only [hb] at h
      cases hm : map_buckets cfg bs with
      | error u => simp only [hm] at h; exact Except.noConfusion h
      | ok qs =>
        simp only [hm] at h
        have hl := Except.ok.inj h
        obtain ⟨hlen, hall⟩ := ih hm
        rw [← hl]
        refine ⟨by simp [hlen], ?_⟩
        intro q hq
        rcases List.mem_cons.mp hq with rfl | hq'
        · exact bucket_energy_ok_nonneg hb
        · exact hall q hq'

/-- A successful day profile over a supported source has one entry per
bucket, all nonnegative. -/
theorem get_load_profile_for_day_ok {cfg : LoadConfig}
    {buckets : List BucketEnv} {l : List ℚ}
    (hsrc : cfg.src = .openhab ∨ cfg.src = .homeassistant)
    (h : get_load_profile_for_day cfg buckets = .ok l) :
    l.length = buckets.length ∧ ∀ q ∈ l, 0 ≤ q := by
  unfold get_load_profile_for_day at h
  rw [if_pos hsrc] at h
  exact map_buckets_ok h

/-- getD with default 0 preserves nonnegativity. -/
theorem getD_zero_nonneg (l : List ℚ) (hl : ∀ x ∈ l, 0 ≤ x) (i : ℕ) :
    0 ≤ l.getD i 0 := by
  induction l generalizing i with
  | nil => simp [List.getD]
  | cons a l ih =>
    cases i with
    | zero => simpa [List.getD] using hl a (List.mem_cons_self _ _)
    | succ n =>
      simpa [List.getD] using ih (fun x hx => hl x (List.mem_cons_of_mem a hx)) n

theorem combine_days_length (a b : List ℚ) :
    (combine_days a b).length = a.length := by
  simp [combine_days]

theorem combine_days_nonneg {a b : List ℚ} (ha : ∀ x ∈ a, 0 ≤ x)
    (hb : ∀ x ∈ b, 0 ≤ x) : ∀ x ∈ combine_days a b, 0 ≤ x := by
  intro x hx
  simp only [combine_days, List.mem_map, List.mem_range] at hx
  obtain ⟨i, hi, rfl⟩ := hx
  split_ifs with hc
  · exact div_nonneg (add_nonneg (getD_zero_nonneg a ha i) (getD_zero_nonneg b hb i))
      (by norm_num)
  · exact getD_zero_nonneg a ha i

theorem default_profile_length : default_profile.length = 48 := rfl

theorem default_profile_nonneg : ∀ x ∈ default_profile, 0 ≤ x := by decide

/-- A successful weekday build over a supported source yields 48 nonnegative
entries, in each of the three branches (combined average, yesterday doubled,
synthetic default). -/
theorem create_load_profile_weekdays_ok {cfg : LoadConfig}
    {d7 d14 d6 d13 d1 : Fin 24 → BucketEnv} {p : List ℚ}
    (hsrc : cfg.src = .openhab ∨ cfg.src = .homeassistant)
    (h : create_load_profile_weekdays cfg d7 d14 d6 d13 d1 = .ok p) :
    p.length = 48 ∧ ∀ x ∈ p, 0 ≤ x := by
  unfold create_load_profile_weekdays at h
  cases h1 : get_load_profile_for_day cfg (List.ofFn d7) with
  | error u => simp only [h1] at h; exact Except.noConfusion h
  | ok p1 =>
  simp only [h1] at h
  cases h2 : get_load_profile_for_day cfg (List.ofFn d14) with
  | error u => simp only [h2] at h; exact Except.noConfusion h
  | ok p2 =>
  simp only [h2] at h
  cases h3 : get_load_profile_for_day cfg (List.ofFn d6) with
  | error u => simp only [h3] at h; exact Except.noConfusion h
  | ok p3 =>
  simp only [h3] at h
  cases h4 : get_load_profile_for_day cfg (List.ofFn d13) with
  | error u => simp only [h4] at h; exact Except.noConfusion h
  | ok p4 =>
  simp only [h4] at h
  obtain ⟨l1, n1⟩ := get_load_profile_for_day_ok hsrc h1
  obtain ⟨l2, n2⟩ := get_load_profile_for_day_ok hsrc h2
  obtain ⟨l3, n3⟩ := get_load_profile_for_day_ok hsrc h3
  obtain ⟨l4, n4⟩ := get_load_profile_for_day_ok hsrc h4
  have hl1 : p1.length = 24 := by simpa using l1
  have hl3 : p3.length = 24 := by simpa using l3
  by_cases hz : combine_days p1 p2 ++ combine_days p3 p4 = []
      ∨ (combine_days p1 p2 ++ combine_days p3 p4).all (· = 0)
  · rw [if_pos hz] at h
    cases h5 : get_load_profile_for_day cfg (List.ofFn d1) with
    | error u => simp only [h5] at h; exact Except.noConfusion h
    | ok y =>
    simp only [h5] at h
    obtain ⟨ly, ny⟩ := get_load_profile_for_day_ok hsrc h5
    have hly : y.length = 24 := by simpa using ly
    by_cases hy : y ≠ [] ∧ ¬ y.all (· = 0)
    · rw [if_pos hy] at h
      have hp := Except.ok.inj h
      rw [← hp]
      refine ⟨by simp [hly], ?_⟩
      intro x hx
      rcases List.mem_append.mp hx with hx | hx <;> exact ny x hx
    · rw [if_neg hy] at h
      have hp := Except.ok.inj h
      rw [← hp]
      exact ⟨default_profile_length, default_profile_nonneg⟩
  · rw [if_neg hz] at h
    have hp := Except.ok.inj h
    rw [← hp]
    constructor
    · simp [combine_days_length, hl1, hl3]
    · intro x hx
      rcases List.mem_append.mp hx with hx | hx
      · exact combine_days_nonneg n1 n2 x hx
      · exact combine_days_nonneg n3 n4 x hx

/-- C4: every load profile returned by get_load_profile for the deployed
target duration of 48 hours (EOS_TGT_DURATION), over any configured source
and any fetch outcomes, including all fallback branches, has exactly 48
entries, all nonnegative. -/
theorem get_load_profile_48_nonneg (cfg : LoadConfig)
    (d7 d14 d6 d13 d1 : Fin 24 → BucketEnv) (p : List ℚ)
    (h : get_load_profile cfg 48 d7 d14 d6 d13 d1 = .ok p) :
    p.length = 48 ∧ ∀ x ∈ p, 0 ≤ x := by
  have hdef : (default_profile.take 48).length = 48
      ∧ ∀ x ∈ default_profile.take 48, 0 ≤ x :=
    ⟨rfl, fun x hx => default_profile_nonneg x (List.take_subset _ _ hx)⟩
  obtain ⟨src, ls, car, add⟩ := cfg
  cases src with
  | defaultSrc =>
    simp only [get_load_profile] at h
    have hp := Except.ok.inj h
    rw [← hp]
    exact hdef
  | openhab =>
    simp only [get_load_profile] at h
    by_cases hls : ls = ""
    · rw [if_pos hls] at h
      have hp := Except.ok.inj h
      rw [← hp]
      exact hdef
    · rw [if_neg hls] at h
      exact create_load_profile_weekdays_ok (Or.inl rfl) h
  | homeassistant =>
    simp only [get_load_profile] at h
    by_cases hls : ls = ""
    · rw [if_pos hls] at h
      have hp := Except.ok.inj h
      rw [← hp]
      exact hdef
    · rw [if_neg hls] at h
      exact create_load_profile_weekdays_ok (Or.inr rfl) h

/-- Witness for C4 on the default source. -/
theorem get_load_profile_48_nonneg_witness :
    (default_profile.take 48).length = 48
    ∧ ∀ x ∈ default_profile.take 48, 0 ≤ x :=
  get_load_profile_48_nonneg ⟨.defaultSrc, "", "", ""⟩
    (fun _ => ⟨0, .timeout, .timeout, .timeout⟩)
    (fun _ => ⟨0, .timeout, .timeout, .timeout⟩)
    (fun _ => ⟨0, .timeout, .timeout, .timeout⟩)
    (fun _ => ⟨0, .timeout, .timeout, .timeout⟩)
    (fun _ => ⟨0, .timeout, .timeout, .timeout⟩)
    (default_profile.take 48) rfl

/-- C6: when the combined weekday profile is empty or all zeros, the builder
returns yesterday's profile concatenated with itself provided it is
non-empty and not all zeros, and the built-in synthetic default profile
otherwise. -/
theorem create_load_profile_weekdays_fallback (cfg : LoadConfig)
    (d7 d14 d6 d13 d1 : Fin 24 → BucketEnv) (p1 p2 p3 p4 y : List ℚ)
    (h1 : get_load_profile_for_day cfg (List.ofFn d7) = .ok p1)
    (h2 : get_load_profile_for_day cfg (List.ofFn d14) = .ok p2)
    (h3 : get_load_profile_for_day cfg (List.ofFn d6) = .ok p3)
    (h4 : get_load_profile_for_day cfg (List.ofFn d13) = .ok p4)
    (hz : combine_days p1 p2 ++ combine_days p3 p4 = []
        ∨ (combine_days p1 p2 ++ combine_days p3 p4).all (· = 0))
    (hy : get_load_profile_for_day cfg (List.ofFn d1) = .ok y) :
    create_load_profile_weekdays cfg d7 d14 d6 d13 d1
      = .ok (if y ≠ [] ∧ ¬ y.all (· = 0) then y ++ y else default_profile) := by
  unfold create_load_profile_weekdays
  simp only [h1, h2, h3, h4]
  rw [if_pos hz]
  simp only [hy]
  split_ifs with hcy
  · rfl
  · rfl

/-- Processing an empty sample list at clock 0 yields 0: no loop iteration
happens, the extension to the hour boundary adds a zero-valued last state,
and the positive-duration division returns 0. -/
theorem process_energy_data_nil_zero :
    process_energy_data .openhab 0 [] = .ok 0 := by
  show Except.ok (finish_process (initPState 0)) = .ok 0
  have hfloor : floorHour ((0 : ℚ) + 3600) = 3600 := by
    rw [floorHour]
    norm_num
  simp only [finish_process, initPState, hfloor]
  norm_num [round4, pyRound]

/-- Bucket value of the C6 witness environment: no controllable sensors and
a timed-out main fetch produce the value 0. -/
theorem bucket_energy_witness_zero :
    bucket_energy ⟨.openhab, "load", "", ""⟩ ⟨0, .timeout, .timeout, .timeout⟩
      = .ok 0 := by
  simp [bucket_energy, controllable_energy, main_samples,
    process_energy_data_nil_zero, Except.map]

/-- map_buckets over identical buckets replicates the bucket value. -/
theorem map_buckets_replicate {cfg : LoadConfig} {b : BucketEnv} {q : ℚ}
    (hb : bucket_energy cfg b = .ok q) :
    ∀ n, map_buckets cfg (List.replicate n b) = .ok (List.replicate n q) := by
  intro n
  induction n with
  | zero => rfl
  | succ n ih => simp [List.replicate_succ, map_buckets, hb, ih]

/-- Day profile of the C6 witness environment: 24 zero entries. -/
theorem get_load_profile_for_day_witness :
    get_load_profile_for_day ⟨.openhab, "load", "", ""⟩
        (List.ofFn fun _ : Fin 24 => ⟨0, .timeout, .timeout, .timeout⟩)
      = .ok (List.replicate 24 0) := by
  rw [get_load_profile_for_day, if_pos (Or.inl rfl), List.ofFn_const]
  exact map_buckets_replicate bucket_energy_witness_zero 24

theorem getD_replicate_zero (n i : ℕ) :
    (List.replicate n (0 : ℚ)).getD i 0 = 0 := by
  induction n generalizing i with
  | zero => simp [List.getD]
  | succ n ih =>
    cases i with
    | zero => rfl
    | succ j => exact ih j

/-- The combined profile of two zero windows is all zeros. -/
theorem combine_days_replicate_zero_all :
    ((combine_days (List.replicate 24 (0 : ℚ)) (List.replicate 24 0)
        ++ combine_days (List.replicate 24 0) (List.replicate 24 0)).all
      (· = 0)) = true := by
  rw [List.all_eq_true]
  intro x hx
  have hmem : x ∈ combine_days (List.replicate 24 (0 : ℚ)) (List.replicate 24 0) := by
    rcases List.mem_append.mp hx with hx | hx <;> exact hx
  simp only [combine_days, List.mem_map, List.mem_range] at hmem
  obtain ⟨i, hi, rfl⟩ := hmem
  simp only [getD_replicate_zero, decide_eq_true_eq]
  split_ifs <;> norm_num

theorem replicate_zero_not_useful :
    ¬ (List.replicate 24 (0 : ℚ) ≠ [] ∧ ¬ (List.replicate 24 (0 : ℚ)).all (· = 0)) := by
  rintro ⟨-, hno⟩
  exact hno (by decide)

/-- Witness for C6: with every historical fetch timing out, all windows
come back as zero-valued 24-entry profiles and the builder falls back to the
synthetic default profile. -/
theorem create_load_profile_weekdays_fallback_witness :
    create_load_profile_weekdays ⟨.openhab, "load", "", ""⟩
        (fun _ => ⟨0, .timeout, .timeout, .timeout⟩)
        (fun _ => ⟨0, .timeout, .timeout, .timeout⟩)
        (fun _ => ⟨0, .timeout, .timeout, .timeout⟩)
        (fun _ => ⟨0, .timeout, .timeout, .timeout⟩)
        (fun _ => ⟨0, .timeout, .timeout, .timeout⟩)
      = .ok default_profile := by
  refine (create_load_profile_weekdays_fallback ⟨.openhab, "load", "", ""⟩
      (fun _ => ⟨0, .timeout, .timeout, .timeout⟩)
      (fun _ => ⟨0, .timeout, .timeout, .timeout⟩)
      (fun _ => ⟨0, .timeout, .timeout, .timeout⟩)
      (fun _ => ⟨0, .timeout, .timeout, .timeout⟩)
      (fun _ => ⟨0, .timeout, .timeout, .timeout⟩)
      (List.replicate 24 0) (List.replicate 24 0) (List.replicate 24 0)
      (List.replicate 24 0) (List.replicate 24 0)
      get_load_profile_for_day_witness get_load_profile_for_day_witness
      get_load_profile_for_day_witness get_load_profile_for_day_witness
      (Or.inr combine_days_replicate_zero_all)
      get_load_profile_for_day_witness).trans ?_
  rw [if_neg replicate_zero_not_useful]
